import Mathlib

/-!
Shallow embedding of the error capture / resilience layer of the
SBTechAssociates repository:

* `src/sbtech/src/lib/error-recovery.ts` — `retry`, `fetchWithFallback`,
  the `CircuitBreaker` class and `classifyError`;
* `src/sbtech/src/app/api/test-error/route.ts` — `checkRateLimit`,
  the `ErrorLogSchema` zod schema and the ingestion `POST` handler.

Times (`Date.now()` values) are modelled as `Int` (epoch milliseconds).
Promise-returning operations are modelled by their outcome (`Except`);
side-effecting callbacks and timers are recorded in explicit traces.
-/

namespace SBTech

/-! ## Circuit breaker (`error-recovery.ts`, lines 110–156) -/

/-- The `state` field of the `CircuitBreaker` class:
`'CLOSED' | 'OPEN' | 'HALF_OPEN'`. -/
inductive CBState
  | CLOSED
  | OPEN
  | HALF_OPEN
deriving DecidableEq, Repr

/-- The mutable fields of the `CircuitBreaker` class together with its
constructor parameters `failureThreshold` and `resetTimeout`. -/
structure CircuitBreaker where
  failures : Nat
  lastFailureTime : Int
  state : CBState
  failureThreshold : Nat
  resetTimeout : Int
deriving DecidableEq, Repr

/-- A freshly constructed breaker: `failures = 0`, `lastFailureTime = 0`,
`state = 'CLOSED'`. -/
def CircuitBreaker.init (failureThreshold : Nat) (resetTimeout : Int) : CircuitBreaker :=
  { failures := 0
    lastFailureTime := 0
    state := .CLOSED
    failureThreshold := failureThreshold
    resetTimeout := resetTimeout }

/-- `private onSuccess()`: `failures = 0; state = 'CLOSED'`. -/
def CircuitBreaker.onSuccess (cb : CircuitBreaker) : CircuitBreaker :=
  { cb with failures := 0, state := .CLOSED }

/-- `private onFailure()`: `failures++; lastFailureTime = Date.now();
if (failures >= failureThreshold) state = 'OPEN'`. -/
def CircuitBreaker.onFailure (cb : CircuitBreaker) (now : Int) : CircuitBreaker :=
  { cb with
    failures := cb.failures + 1
    lastFailureTime := now
    state := if cb.failures + 1 ≥ cb.failureThreshold then .OPEN else cb.state }

/-- The opening `if (this.state === 'OPEN')` block of `execute`:
`none` models `throw new Error('Circuit breaker is OPEN')`; `some cb'`
is the breaker state with which the `try` block proceeds. -/
def CircuitBreaker.preCheck (cb : CircuitBreaker) (now : Int) : Option CircuitBreaker :=
  if cb.state = .OPEN then
    if now - cb.lastFailureTime > cb.resetTimeout then
      some { cb with state := .HALF_OPEN }
    else
      none
  else
    some cb

/-- Outcome of one `execute` call. `circuitOpen` models the
`'Circuit breaker is OPEN'` error thrown without invoking `fn`;
`opOk`/`opErr` model the invoked operation resolving/rejecting
(the operation's error is re-thrown). -/
inductive ExecResult (E T : Type)
  | circuitOpen
  | opOk (t : T)
  | opErr (e : E)
deriving DecidableEq, Repr

/-- `async execute<T>(fn)`. The operation `fn` is modelled by its outcome
`op : Except E T`; `now` is the value `Date.now()` returns during this
call. Returns the breaker after the call and the call's outcome. -/
def CircuitBreaker.execute (cb : CircuitBreaker) (now : Int) {E T : Type}
    (op : Except E T) : CircuitBreaker × ExecResult E T :=
  match cb.preCheck now with
  | none => (cb, .circuitOpen)
  | some cb1 =>
    match op with
    | .ok t => (cb1.onSuccess, .opOk t)
    | .error e => (cb1.onFailure now, .opErr e)

/-- `getState()`. -/
def CircuitBreaker.getState (cb : CircuitBreaker) : CBState :=
  cb.state

/-- A sequence of `execute` calls, each given by its `Date.now()` value and
the outcome of its operation (when invoked). -/
def CircuitBreaker.execSeq (cb : CircuitBreaker) :
    List (Int × Except Unit Unit) → CircuitBreaker
  | [] => cb
  | (t, op) :: rest => ((cb.execute t op).1).execSeq rest

/-- A sequence of `execute` calls whose operations all reject, at the given
`Date.now()` values. -/
def CircuitBreaker.failSeq (cb : CircuitBreaker) : List Int → CircuitBreaker
  | [] => cb
  | t :: ts => ((cb.execute t (Except.error () : Except Unit Unit)).1).failSeq ts

/-! ## `retry` (`error-recovery.ts`, lines 11–45) -/

/-- Observable behaviour of one `retry` call: which attempt numbers invoked
`fn`, the `(attempt, error)` pairs passed to `onRetry`, the delays passed to
`setTimeout` between attempts, and the final outcome.  In the outcome,
`Except.error none` models `throw lastError!` reached with `lastError`
still `undefined` (never assigned); `Except.error (some e)` models
throwing the error `e`. -/
structure RetryTrace (E T : Type) where
  invocations : List Nat
  onRetryCalls : List (Nat × E)
  delays : List Nat
  result : Except (Option E) T
deriving Repr

/-- The `for (let attempt = 1; attempt <= maxAttempts; attempt++)` loop of
`retry`, entered at loop counter `attempt` with accumulator `lastError`.
The operation `fn` is modelled by the outcome of its `attempt`-th
invocation, `op attempt`.  `maxAttempts` is an `Int` because the caller
may pass any number, including non-positive ones.  When the guard fails the
function falls through to the final `throw lastError!`. -/
def retryLoop {E T : Type} (op : Nat → Except E T) (maxAttempts : Int) (delay : Nat)
    (backoff : Bool) (hasOnRetry : Bool) (attempt : Nat) (lastError : Option E) :
    RetryTrace E T :=
  if (attempt : Int) > maxAttempts then
    ⟨[], [], [], .error lastError⟩
  else
    match op attempt with
    | .ok t => ⟨[attempt], [], [], .ok t⟩
    | .error e =>
      if (attempt : Int) = maxAttempts then
        ⟨[attempt], [], [], .error (some e)⟩
      else
        let currentDelay := if backoff then delay * 2 ^ (attempt - 1) else delay
        let rest := retryLoop op maxAttempts delay backoff hasOnRetry (attempt + 1) (some e)
        ⟨attempt :: rest.invocations,
         (if hasOnRetry then [(attempt, e)] else []) ++ rest.onRetryCalls,
         currentDelay :: rest.delays,
         rest.result⟩
termination_by (maxAttempts + 1 - (attempt : Int)).toNat
decreasing_by
  simp_wf
  omega

/-- `async function retry<T>(fn, options)`.  Option defaults in the source:
`maxAttempts = 3`, `delay = 1000`, `backoff = true`; `hasOnRetry` records
whether an `onRetry` callback was supplied. -/
def retry {E T : Type} (op : Nat → Except E T) (maxAttempts : Int) (delay : Nat)
    (backoff : Bool) (hasOnRetry : Bool) : RetryTrace E T :=
  retryLoop op maxAttempts delay backoff hasOnRetry 1 none

/-! ## `fetchWithFallback` (`error-recovery.ts`, lines 51–80) -/

/-- Outcome of the `fetch(url, options)` + `response.json()` prefix of
`fetchWithFallback`: `ok data` when the response was ok and parsed to
`data`; `httpError` when `!response.ok` (the code then throws
`new Error("HTTP {status}: {statusText}")`); `netError` when `fetch`
itself rejected. -/
inductive FetchOutcome (V : Type)
  | ok (data : V)
  | httpError (status : Nat) (statusText : String)
  | netError
deriving DecidableEq, Repr

/-- The errors `fetchWithFallback` can propagate. -/
inductive FetchError
  | network
  | http (status : Nat) (statusText : String)
deriving DecidableEq, Repr

/-- The error `fetchWithFallback`'s `try` block throws for a given fetch
outcome, if any: `none` for a successful call, otherwise the HTTP-status
error thrown for `!response.ok` or the network error from `fetch` itself. -/
def FetchOutcome.failureOf {V : Type} : FetchOutcome V → Option FetchError
  | .ok _ => none
  | .httpError status statusText => some (.http status statusText)
  | .netError => some .network

/-- The module-level `fallbackCache` `Map`, modelled as an association list
where `Map.set` prepends (lookup finds the most recent binding, matching
`Map.get`/`Map.has`). -/
abbrev Cache (V : Type) := List (String × V)

/-- `fallbackCache.set(key, data)`. -/
def Cache.set {V : Type} (c : Cache V) (k : String) (v : V) : Cache V :=
  (k, v) :: c

/-- `fallbackCache.get(key)` / `fallbackCache.has(key)` (via `isSome`). -/
def Cache.get {V : Type} (c : Cache V) (k : String) : Option V :=
  List.lookup k c

/-- `async function fetchWithFallback<T>(url, options, fallbackKey?)`.
The network interaction is modelled by `outcome`; the function returns the
cache after the call and either the payload returned or the error
re-thrown. -/
def fetchWithFallback {V : Type} (cache : Cache V) (outcome : FetchOutcome V)
    (fallbackKey : Option String) : Cache V × Except FetchError V :=
  match outcome with
  | .ok data =>
    match fallbackKey with
    | some k => (cache.set k data, .ok data)
    | none => (cache, .ok data)
  | .httpError status statusText =>
    fetchFallbackPath cache (.http status statusText) fallbackKey
  | .netError =>
    fetchFallbackPath cache .network fallbackKey
where
  /-- The `catch` block: use the cached entry if `fallbackKey` is supplied
  and present, else re-throw. -/
  fetchFallbackPath (cache : Cache V) (err : FetchError) (fallbackKey : Option String) :
      Cache V × Except FetchError V :=
    match fallbackKey with
    | some k =>
      match cache.get k with
      | some v => (cache, .ok v)
      | none => (cache, .error err)
    | none => (cache, .error err)

/-! ## `classifyError` (`error-recovery.ts`, lines 183–199) -/

/-- The return type of `classifyError`:
`'network' | 'validation' | 'server' | 'unknown'`. -/
inductive ErrorCategory
  | network
  | validation
  | server
  | unknown
deriving DecidableEq, Repr

/-- `String.prototype.includes`: `sub` occurs as a contiguous substring of
`s`. -/
def includes (s sub : String) : Bool :=
  decide (sub.toList <:+: s.toList)

/-- `String.prototype.toLowerCase`, character by character (ASCII case
mapping — every keyword the classifier checks is ASCII). -/
def toLowerCase (s : String) : String :=
  ⟨s.data.map Char.toLower⟩

/-- The first keyword group checked by `classifyError`:
`message.includes('fetch') || message.includes('network') ||
message.includes('timeout')`. -/
def networkMatch (message : String) : Bool :=
  includes message "fetch" || includes message "network" || includes message "timeout"

/-- The second keyword group checked by `classifyError`:
`message.includes('validation') || message.includes('invalid')`. -/
def validationMatch (message : String) : Bool :=
  includes message "validation" || includes message "invalid"

/-- The third keyword group checked by `classifyError`:
`message.includes('500') || message.includes('server')`. -/
def serverMatch (message : String) : Bool :=
  includes message "500" || includes message "server"

/-- `function classifyError(error)`, applied to `error.message`.  Lowercases
the message, then checks the keyword groups in source order; first match
wins. -/
def classifyError (msg : String) : ErrorCategory :=
  let message := toLowerCase msg
  if includes message "fetch" || includes message "network" || includes message "timeout" then
    .network
  else if includes message "validation" || includes message "invalid" then
    .validation
  else if includes message "500" || includes message "server" then
    .server
  else
    .unknown

/-! ## Rate limiter (`route.ts`, `checkRateLimit`, lines 68–86) -/

/-- A value of the `rateLimitStore` map: `{ count, resetTime }`. -/
structure RateRecord where
  count : Nat
  resetTime : Int
deriving DecidableEq, Repr

/-- `const windowMs = 60 * 1000`. -/
def windowMs : Int := 60 * 1000

/-- `const maxRequests = 10`. -/
def maxRequests : Nat := 10

/-- The module-level `rateLimitStore` `Map`, as an association list where
`Map.set` prepends (lookup finds the most recent binding). -/
abbrev RateStore := List (String × RateRecord)

/-- `rateLimitStore.get(ip)`. -/
def RateStore.get (s : RateStore) (ip : String) : Option RateRecord :=
  List.lookup ip s

/-- `rateLimitStore.set(ip, record)` (also covers the in-place
`record.count++` mutation, observationally). -/
def RateStore.set (s : RateStore) (ip : String) (r : RateRecord) : RateStore :=
  (ip, r) :: s

/-- `function checkRateLimit(ip)`, with `now` the value of `Date.now()`.
Returns the store after the call and the boolean the function returns
(`true` = admitted). -/
def checkRateLimit (store : RateStore) (ip : String) (now : Int) : RateStore × Bool :=
  match store.get ip with
  | none => (store.set ip ⟨1, now + windowMs⟩, true)
  | some record =>
    if now > record.resetTime then
      (store.set ip ⟨1, now + windowMs⟩, true)
    else if record.count ≥ maxRequests then
      (store, false)
    else
      (store.set ip { record with count := record.count + 1 }, true)

/-- A sequence of requests from the same `ip` at the given `Date.now()`
values; returns the final store and the admission flag of each request in
order. -/
def requestSeq (store : RateStore) (ip : String) : List Int → RateStore × List Bool
  | [] => (store, [])
  | t :: ts =>
    let first := checkRateLimit store ip t
    let rest := requestSeq first.1 ip ts
    (rest.1, first.2 :: rest.2)

/-! ## Ingestion endpoint (`route.ts`, `ErrorLogSchema` and `POST`,
lines 54–65 and 98–152) -/

/-- The JSON object produced by `request.json()`, with each field of
`ErrorLogSchema` either absent (`none`) or present with the schema's
type.  (A field present with a wrong JSON type is modelled as absent:
both fail `z.string()` / `z.number()` the same way.) -/
structure RawBody where
  message : Option String
  stack : Option String
  url : Option String
  lineNumber : Option Int
  columnNumber : Option Int
  browser : Option String
  os : Option String
  timestamp : Option Int
  type : Option String
  userAgent : Option String
deriving DecidableEq, Repr

/-- Splits a character list at the first occurrence of `"://"`. -/
def splitURL : List Char → Option (List Char × List Char)
  | [] => none
  | c :: cs =>
    if (c :: cs).take 3 = [':', '/', '/'] then some ([], (c :: cs).drop 3)
    else
      match splitURL cs with
      | some (pre, post) => some (c :: pre, post)
      | none => none

/-- Modelled from the spec: zod's `z.string().url()` well-formedness check
(the zod library is a dependency, not part of the repository's sources).
The spec requires `url` to "be a well-formed URL at the ingestion
boundary"; modelled as an alphabetic nonempty scheme followed by `"://"`
and a nonempty remainder.  No claim turns on the exact shape of this
check. -/
def zodIsURL (s : String) : Bool :=
  match splitURL s.data with
  | some (scheme, rest) =>
    decide (scheme ≠ []) && scheme.all Char.isAlpha && decide (rest ≠ [])
  | none => false

/-- The output type of `ErrorLogSchema.parse`: every required field present
and validated. -/
structure ErrorReport where
  message : String
  stack : Option String
  url : String
  lineNumber : Option Int
  columnNumber : Option Int
  browser : Option String
  os : Option String
  timestamp : Int
  type : String
  userAgent : Option String
deriving DecidableEq, Repr

/-- `ErrorLogSchema.parse(body)`: `none` models the `ZodError` throw, which
the handler's `catch` turns into a 400 response.  Required fields:
`message` (`z.string().max(1000)`), `url` (`z.string().url()`),
`timestamp` (`z.number()`), `type`
(`z.enum(['error', 'unhandledrejection'])`); the rest are `.optional()`. -/
def ErrorLogSchema.parse (b : RawBody) : Option ErrorReport :=
  match b.message, b.url, b.timestamp, b.type with
  | some message, some url, some timestamp, some ty =>
    if decide (message.length ≤ 1000) && zodIsURL url
        && (ty == "error" || ty == "unhandledrejection") then
      some ⟨message, b.stack, url, b.lineNumber, b.columnNumber, b.browser,
            b.os, timestamp, ty, b.userAgent⟩
    else
      none
  | _, _, _, _ => none

/-- One line of `logs/frontend-errors.log`: the validated payload spread
together with `ip` and `serverTimestamp` (`fs.appendFileSync` of its JSON
plus a newline). -/
structure LogEntry where
  report : ErrorReport
  ip : String
  serverTimestamp : Int
deriving DecidableEq, Repr

/-- The `NextResponse.json` value the handler returns: its `success` flag
and HTTP status. -/
structure PostResponse where
  success : Bool
  status : Nat
deriving DecidableEq, Repr

/-- `export async function POST(request)`.  `ip` is the resolved client
identifier (`request.ip || x-forwarded-for || 'unknown'`); `now` the value
of `Date.now()` during the call; `body` is `none` when `request.json()`
throws (malformed JSON); `appendThrows` is true when `fs.appendFileSync`
throws.  Every throw inside the `try` block lands in the single `catch`,
which returns `{success: false, error: 'Invalid error log format'}` with
status 400.  Returns the rate-limit store, the log file contents and the
response. -/
def POST (rateStore : RateStore) (log : List LogEntry) (ip : String) (now : Int)
    (body : Option RawBody) (appendThrows : Bool) :
    RateStore × List LogEntry × PostResponse :=
  let checked := checkRateLimit rateStore ip now
  if !checked.2 then
    (checked.1, log, ⟨false, 429⟩)
  else
    match body with
    | none => (checked.1, log, ⟨false, 400⟩)
    | some b =>
      match ErrorLogSchema.parse b with
      | none => (checked.1, log, ⟨false, 400⟩)
      | some validatedData =>
        if appendThrows then
          (checked.1, log, ⟨false, 400⟩)
        else
          (checked.1, log ++ [⟨validatedData, ip, now⟩], ⟨true, 200⟩)

/-! ## Theorems -/

/-- C9: `classifyError` checks the lowercased message for the network
keywords ("fetch", "network", "timeout") first, then the validation
keywords ("validation", "invalid"), then the server keywords ("500",
"server"), returning the first matching category and `unknown` when none
match; on the spec's examples it returns `network`, `validation`, `server`
and `unknown` respectively, and a message matching several groups (here
both the network and validation groups) gets the earliest category. -/
theorem C9_classifyError_order_and_examples :
    (∀ msg : String,
      classifyError msg =
        if networkMatch (toLowerCase msg) then .network
        else if validationMatch (toLowerCase msg) then .validation
        else if serverMatch (toLowerCase msg) then .server
        else .unknown) ∧
    classifyError "fetch failed: timeout" = .network ∧
    classifyError "Invalid input: email" = .validation ∧
    classifyError "500 Internal" = .server ∧
    classifyError "whatever" = .unknown ∧
    classifyError "invalid network" = .network :=
  ⟨fun _ => rfl, by decide, by decide, by decide, by decide, by decide⟩

/-- C10: calling `retry` with `maxAttempts = 0` (or any non-positive value)
never invokes the operation, never calls `onRetry`, schedules no delay, and
throws the never-assigned `lastError` placeholder (`undefined`, modelled as
`Except.error none`) because the attempt loop body is never entered before
the final `throw lastError!`. -/
theorem C10_retry_nonpositive {E T : Type} (op : Nat → Except E T) (maxAttempts : Int)
    (delay : Nat) (backoff hasOnRetry : Bool) (h : maxAttempts ≤ 0) :
    retry op maxAttempts delay backoff hasOnRetry = ⟨[], [], [], Except.error none⟩ := by
  unfold retry
  rw [retryLoop, if_pos (by omega : ((1 : Nat) : Int) > maxAttempts)]

/-- Witness for C10 at `maxAttempts = 0` with an always-failing operation. -/
theorem C10_retry_nonpositive_witness :
    (0 : Int) ≤ 0 ∧
      retry (fun _ => (Except.error "boom" : Except String Nat)) 0 1000 true true =
        ⟨[], [], [], Except.error none⟩ :=
  ⟨by decide, C10_retry_nonpositive _ 0 1000 true true (by decide)⟩

/-- C7: when the fetch succeeds and a `fallbackKey` is supplied,
`fetchWithFallback` stores the parsed payload in the fallback cache under
that key before returning it; when the call fails (network error or
non-success HTTP status) with a key supplied and a cached entry present, it
returns the cached payload instead of throwing; when the call fails with no
cached entry for the key, or with no key supplied, the error is
re-thrown. -/
theorem C7_fetchWithFallback_spec {V : Type} :
    (∀ (cache : Cache V) (data : V) (k : String),
      fetchWithFallback cache (.ok data) (some k) = (cache.set k data, .ok data)) ∧
    (∀ (cache : Cache V) (out : FetchOutcome V) (err : FetchError) (k : String) (v : V),
      out.failureOf = some err → cache.get k = some v →
      fetchWithFallback cache out (some k) = (cache, .ok v)) ∧
    (∀ (cache : Cache V) (out : FetchOutcome V) (err : FetchError) (k : String),
      out.failureOf = some err → cache.get k = none →
      fetchWithFallback cache out (some k) = (cache, .error err)) ∧
    (∀ (cache : Cache V) (out : FetchOutcome V) (err : FetchError),
      out.failureOf = some err →
      fetchWithFallback cache out none = (cache, .error err)) := by
  refine ⟨fun _ _ _ => rfl, ?_, ?_, ?_⟩
  · intro cache out err k v hout hget
    cases out <;>
      simp_all [FetchOutcome.failureOf, fetchWithFallback,
        fetchWithFallback.fetchFallbackPath]
  · intro cache out err k hout hget
    cases out <;>
      simp_all [FetchOutcome.failureOf, fetchWithFallback,
        fetchWithFallback.fetchFallbackPath]
  · intro cache out err hout
    cases out <;>
      simp_all [FetchOutcome.failureOf, fetchWithFallback,
        fetchWithFallback.fetchFallbackPath]

/-- Witness for C7: a network failure with `"k"` cached returns the cached
payload; the same failure against an empty cache re-throws. -/
theorem C7_fetchWithFallback_witness :
    (FetchOutcome.netError : FetchOutcome Nat).failureOf = some .network ∧
      (Cache.get [("k", 5)] "k" = some 5) ∧
      fetchWithFallback [("k", 5)] (.netError : FetchOutcome Nat) (some "k") =
        ([("k", 5)], .ok 5) ∧
      fetchWithFallback ([] : Cache Nat) .netError (some "k") =
        ([], .error .network) :=
  ⟨by decide, by decide,
    C7_fetchWithFallback_spec.2.1 [("k", 5)] .netError .network "k" 5 (by decide) (by decide),
    C7_fetchWithFallback_spec.2.2.1 [] .netError .network "k" (by decide) (by decide)⟩

theorem RateStore.get_set (s : RateStore) (ip : String) (r : RateRecord) :
    (s.set ip r).get ip = some r := by
  simp [RateStore.get, RateStore.set, List.lookup]

/-- A run of requests whose record exists and stays within both the window
and the limit: every request is admitted and the count goes up by one per
request, the reset time unchanged. -/
theorem requestSeq_within (ip : String) :
    ∀ (us : List Int) (store : RateStore) (k : Nat) (reset : Int),
      store.get ip = some ⟨k, reset⟩ →
      (∀ u ∈ us, ¬ u > reset) →
      k + us.length ≤ maxRequests →
      ((requestSeq store ip us).1.get ip = some ⟨k + us.length, reset⟩) ∧
        (requestSeq store ip us).2 = List.replicate us.length true := by
  intro us
  induction us with
  | nil =>
    intro store k reset hget _ _
    simpa [requestSeq] using hget
  | cons u us ih =>
    intro store k reset hget hwin hle
    have hu : ¬ u > reset := hwin u (by simp)
    have hcount : ¬ k ≥ maxRequests := by
      simp only [List.length_cons] at hle
      omega
    have hstep : checkRateLimit store ip u =
        (store.set ip ⟨k + 1, reset⟩, true) := by
      simp [checkRateLimit, hget, hu, hcount]
    have hrec := ih (store.set ip ⟨k + 1, reset⟩) (k + 1) reset
      (RateStore.get_set _ _ _) (fun v hv => hwin v (by simp [hv])) (by
        simp only [List.length_cons] at hle
        omega)
    simp only [requestSeq, hstep, List.length_cons]
    refine ⟨?_, by simp [hrec.2, List.replicate_succ]⟩
    rw [show k + (us.length + 1) = k + 1 + us.length from by omega]
    exact hrec.1

/-- `requestSeq` splits over list append. -/
theorem requestSeq_append (ip : String) (us vs : List Int) :
    ∀ store : RateStore,
      requestSeq store ip (us ++ vs) =
        ((requestSeq (requestSeq store ip us).1 ip vs).1,
         (requestSeq store ip us).2 ++ (requestSeq (requestSeq store ip us).1 ip vs).2) := by
  induction us with
  | nil => intro store; simp [requestSeq]
  | cons u us ih => intro store; simp [requestSeq, ih]

/-- C2: for every client key, the first request (no record) or a request
after the recorded `resetTime` installs a fresh record with `count = 1` and
`resetTime = now + 60s` and is admitted; a request whose unexpired record
has `count ≥ 10` is rejected (and the `POST` handler turns that rejection
into a 429 response); otherwise the request is admitted with `count`
incremented; consequently 10 requests within one window from the same key
all succeed and the 11th in that window is rejected. -/
theorem C2_rate_limiter_spec :
    (∀ (store : RateStore) (ip : String) (now : Int),
      store.get ip = none →
      checkRateLimit store ip now = (store.set ip ⟨1, now + windowMs⟩, true)) ∧
    (∀ (store : RateStore) (ip : String) (now : Int) (r : RateRecord),
      store.get ip = some r → now > r.resetTime →
      checkRateLimit store ip now = (store.set ip ⟨1, now + windowMs⟩, true)) ∧
    (∀ (store : RateStore) (ip : String) (now : Int) (r : RateRecord),
      store.get ip = some r → ¬ now > r.resetTime → r.count ≥ maxRequests →
      checkRateLimit store ip now = (store, false)) ∧
    (∀ (store : RateStore) (ip : String) (now : Int) (r : RateRecord),
      store.get ip = some r → ¬ now > r.resetTime → r.count < maxRequests →
      checkRateLimit store ip now = (store.set ip { r with count := r.count + 1 }, true)) ∧
    (∀ (rs : RateStore) (log : List LogEntry) (ip : String) (now : Int)
        (body : Option RawBody) (ap : Bool),
      (checkRateLimit rs ip now).2 = false →
      (POST rs log ip now body ap).2.2 = ⟨false, 429⟩) ∧
    (∀ (store : RateStore) (ip : String) (t t11 : Int) (ts : List Int),
      store.get ip = none → ts.length = 9 →
      (∀ u ∈ ts, ¬ u > t + windowMs) → ¬ t11 > t + windowMs →
      (requestSeq store ip (t :: ts ++ [t11])).2 =
        List.replicate 10 true ++ [false]) := by
  refine ⟨?_, ?_, ?_, ?_, ?_, ?_⟩
  · intro store ip now hget
    simp [checkRateLimit, hget]
  · intro store ip now r hget hexp
    simp [checkRateLimit, hget, hexp]
  · intro store ip now r hget hexp hcount
    simp [checkRateLimit, hget, hexp, hcount]
  · intro store ip now r hget hexp hcount
    have hlt : ¬ r.count ≥ maxRequests := by omega
    simp [checkRateLimit, hget, hexp, hlt]
  · intro rs log ip now body ap hlim
    simp [POST, hlim]
  · intro store ip t t11 ts hget hlen hwin h11
    have h1 : checkRateLimit store ip t = (store.set ip ⟨1, t + windowMs⟩, true) := by
      simp [checkRateLimit, hget]
    have hrun := requestSeq_within ip ts (store.set ip ⟨1, t + windowMs⟩) 1 (t + windowMs)
      (RateStore.get_set _ _ _) hwin (by simp [hlen, maxRequests])
    have hlast : checkRateLimit (requestSeq (store.set ip ⟨1, t + windowMs⟩) ip ts).1 ip t11 =
        ((requestSeq (store.set ip ⟨1, t + windowMs⟩) ip ts).1, false) := by
      have : (1 : Nat) + ts.length = 10 := by simp [hlen]
      rw [this] at hrun
      simp [checkRateLimit, hrun.1, h11, maxRequests]
    simp only [List.cons_append, requestSeq, h1]
    rw [List.append_eq, requestSeq_append]
    simp [requestSeq, hrun.2, hlast, hlen, List.replicate_succ]

/-- Witness for C2 at concrete inputs: the four single-step cases and the
10-admitted-then-rejected run. -/
theorem C2_rate_limiter_witness :
    checkRateLimit [] "c" 5 = ([("c", ⟨1, 60005⟩)], true) ∧
      checkRateLimit [("c", ⟨10, 60005⟩)] "c" 70000 =
        ([("c", ⟨1, 130000⟩), ("c", ⟨10, 60005⟩)], true) ∧
      checkRateLimit [("c", ⟨10, 60005⟩)] "c" 100 = ([("c", ⟨10, 60005⟩)], false) ∧
      checkRateLimit [("c", ⟨3, 60005⟩)] "c" 100 =
        ([("c", ⟨4, 60005⟩), ("c", ⟨3, 60005⟩)], true) ∧
      (POST [("c", ⟨10, 60005⟩)] [] "c" 100 none false).2.2 = ⟨false, 429⟩ ∧
      (requestSeq [] "c" ([0] ++ [1, 2, 3, 4, 5, 6, 7, 8, 9] ++ [10])).2 =
        List.replicate 10 true ++ [false] :=
  ⟨C2_rate_limiter_spec.1 [] "c" 5 (by decide),
    C2_rate_limiter_spec.2.1 [("c", ⟨10, 60005⟩)] "c" 70000 ⟨10, 60005⟩
      (by decide) (by decide),
    C2_rate_limiter_spec.2.2.1 [("c", ⟨10, 60005⟩)] "c" 100 ⟨10, 60005⟩
      (by decide) (by decide) (by decide),
    C2_rate_limiter_spec.2.2.2.1 [("c", ⟨3, 60005⟩)] "c" 100 ⟨3, 60005⟩
      (by decide) (by decide) (by decide),
    C2_rate_limiter_spec.2.2.2.2.1 [("c", ⟨10, 60005⟩)] [] "c" 100 none false (by decide),
    C2_rate_limiter_spec.2.2.2.2.2 [] "c" 0 10 [1, 2, 3, 4, 5, 6, 7, 8, 9]
      (by decide) (by decide) (by decide) (by decide)⟩

theorem CircuitBreaker.failSeq_append (ts ts' : List Int) :
    ∀ cb : CircuitBreaker, cb.failSeq (ts ++ ts') = (cb.failSeq ts).failSeq ts' := by
  induction ts with
  | nil => intro cb; rfl
  | cons t ts ih => intro cb; simp [CircuitBreaker.failSeq, ih]

/-- A run of failing calls that stays strictly below the threshold: the
breaker stays `CLOSED`, the failure count goes up by one per call, and
`lastFailureTime` is the time of the last call. -/
theorem CircuitBreaker.failSeq_closed :
    ∀ (ts : List Int) (cb : CircuitBreaker),
      cb.state = .CLOSED →
      cb.failures + ts.length < cb.failureThreshold →
      cb.failSeq ts =
        { failures := cb.failures + ts.length
          lastFailureTime := ts.getLastD cb.lastFailureTime
          state := .CLOSED
          failureThreshold := cb.failureThreshold
          resetTimeout := cb.resetTimeout } := by
  intro ts
  induction ts with
  | nil =>
    intro cb hstate hlt
    cases cb
    simp_all [CircuitBreaker.failSeq]
  | cons t ts ih =>
    intro cb hstate hlt
    simp only [List.length_cons] at hlt
    have hstep : (cb.execute t (Except.error () : Except Unit Unit)).1 =
        { failures := cb.failures + 1, lastFailureTime := t, state := .CLOSED,
          failureThreshold := cb.failureThreshold, resetTimeout := cb.resetTimeout } := by
      have hro : ¬ cb.failures + 1 ≥ cb.failureThreshold := by omega
      simp [CircuitBreaker.execute, CircuitBreaker.preCheck, hstate,
        CircuitBreaker.onFailure, hro]
    have hrec := ih ⟨cb.failures + 1, t, .CLOSED, cb.failureThreshold, cb.resetTimeout⟩
      rfl (show cb.failures + 1 + ts.length < cb.failureThreshold from by omega)
    simp only [CircuitBreaker.failSeq, hstep, hrec, List.getLastD_cons, List.length_cons]
    congr 1
    omega

/-- The failing call that reaches the threshold opens the breaker and
records the failure time. -/
theorem CircuitBreaker.execute_fail_opens (cb : CircuitBreaker) (t : Int)
    (hstate : cb.state = .CLOSED) (hth : cb.failures + 1 ≥ cb.failureThreshold) :
    (cb.execute t (Except.error () : Except Unit Unit)).1 =
      { failures := cb.failures + 1, lastFailureTime := t, state := .OPEN,
        failureThreshold := cb.failureThreshold, resetTimeout := cb.resetTimeout } := by
  simp [CircuitBreaker.execute, CircuitBreaker.preCheck, hstate,
    CircuitBreaker.onFailure, hth]

/-- The breaker with threshold `T` and reset timeout `R` that has just
opened at time `t` with exactly `T` recorded failures. -/
def openBreaker (T : Nat) (R t : Int) : CircuitBreaker :=
  { failures := T, lastFailureTime := t, state := .OPEN,
    failureThreshold := T, resetTimeout := R }

/-- C1: after exactly `T = ts.length + 1` consecutive failed `execute`
calls (the last at time `t`), the breaker reads `OPEN` with `failures = T`
and `lastFailureTime = t`; an `execute` call before `R` has elapsed since
`t` returns the circuit-open error without invoking the operation (the
outcome and the breaker are the same for every operation); a call after
`R` has elapsed transitions the state to `HALF_OPEN` and invokes the
operation, and a successful invocation leaves the breaker `CLOSED` with
`failures = 0`. -/
theorem C1_circuit_breaker_spec (T : Nat) (R t : Int) (ts : List Int)
    (hlen : ts.length + 1 = T) :
    ((CircuitBreaker.init T R).failSeq (ts ++ [t]) = openBreaker T R t) ∧
    ((CircuitBreaker.init T R).failSeq (ts ++ [t])).getState = .OPEN ∧
    (∀ now : Int, now - t < R → ∀ op : Except Unit Unit,
      (openBreaker T R t).execute now op = (openBreaker T R t, .circuitOpen)) ∧
    (∀ now : Int, now - t > R →
      (openBreaker T R t).preCheck now =
        some { openBreaker T R t with state := .HALF_OPEN } ∧
      ∀ x : Unit,
        (openBreaker T R t).execute now (Except.ok x : Except Unit Unit) =
          ({ failures := 0, lastFailureTime := t, state := .CLOSED,
             failureThreshold := T, resetTimeout := R }, .opOk x)) := by
  have hopen : (CircuitBreaker.init T R).failSeq (ts ++ [t]) = openBreaker T R t := by
    rw [CircuitBreaker.failSeq_append]
    have hclosed := CircuitBreaker.failSeq_closed ts (CircuitBreaker.init T R)
      rfl (by simp [CircuitBreaker.init]; omega)
    rw [hclosed]
    show CircuitBreaker.failSeq _ [t] = _
    simp only [CircuitBreaker.failSeq]
    rw [CircuitBreaker.execute_fail_opens _ t rfl (by simp [CircuitBreaker.init]; omega)]
    simp [CircuitBreaker.init, openBreaker, hlen]
  refine ⟨hopen, by rw [hopen]; rfl, ?_, ?_⟩
  · intro now hlt op
    have hng : ¬ now - t > R := by omega
    simp [CircuitBreaker.execute, CircuitBreaker.preCheck, openBreaker, hng]
  · intro now hgt
    refine ⟨by simp [CircuitBreaker.preCheck, openBreaker, hgt], fun x => ?_⟩
    simp [CircuitBreaker.execute, CircuitBreaker.preCheck, openBreaker, hgt,
      CircuitBreaker.onSuccess]

/-- Witness for C1 with `T = 2`, `R = 100`, failures at times 5 and 7, a
blocked call at time 50 and a successful call at time 200. -/
theorem C1_circuit_breaker_witness :
    ((CircuitBreaker.init 2 100).failSeq [5, 7] = openBreaker 2 100 7) ∧
      ((50 : Int) - 7 < 100 ∧
        (openBreaker 2 100 7).execute 50 (Except.error () : Except Unit Unit) =
          (openBreaker 2 100 7, .circuitOpen)) ∧
      ((200 : Int) - 7 > 100 ∧
        (openBreaker 2 100 7).execute 200 (Except.ok () : Except Unit Unit) =
          ({ failures := 0, lastFailureTime := 7, state := .CLOSED,
             failureThreshold := 2, resetTimeout := 100 }, .opOk ())) :=
  ⟨(C1_circuit_breaker_spec 2 100 7 [5] (by decide)).1,
    ⟨by decide,
      (C1_circuit_breaker_spec 2 100 7 [5] (by decide)).2.2.1 50 (by decide) _⟩,
    ⟨by decide,
      ((C1_circuit_breaker_spec 2 100 7 [5] (by decide)).2.2.2 200 (by decide)).2 ()⟩⟩

/-- One `execute` call preserves the invariant
`state = OPEN → failures ≥ failureThreshold`. -/
theorem CircuitBreaker.execute_preserves_open_inv (cb : CircuitBreaker) (now : Int)
    {E T : Type} (op : Except E T)
    (hinv : cb.state = .OPEN → cb.failures ≥ cb.failureThreshold) :
    (cb.execute now op).1.state = .OPEN →
      (cb.execute now op).1.failures ≥ (cb.execute now op).1.failureThreshold := by
  unfold CircuitBreaker.execute CircuitBreaker.preCheck
  by_cases hO : cb.state = .OPEN
  · by_cases hT : now - cb.lastFailureTime > cb.resetTimeout
    · cases op with
      | ok v => simp [hO, hT, CircuitBreaker.onSuccess]
      | error e =>
        simp only [hO, hT, if_pos, if_true, CircuitBreaker.onFailure]
        split <;> simp_all
    · simpa [hO, hT] using hinv
  · cases op with
    | ok v => simp [hO, CircuitBreaker.onSuccess]
    | error e =>
      simp only [hO, if_neg, CircuitBreaker.onFailure]
      split <;> simp_all

/-- C8: in every breaker state reachable from the initial state by a
sequence of `execute` calls, `state = OPEN` implies
`failures ≥ failureThreshold`; and from an `OPEN` breaker the transition
to `HALF_OPEN` happens exactly when `resetTimeout` has elapsed since
`lastFailureTime` (otherwise the call is rejected without touching the
breaker). -/
theorem C8_circuit_breaker_invariant :
    (∀ (T : Nat) (R : Int) (steps : List (Int × Except Unit Unit)),
      ((CircuitBreaker.init T R).execSeq steps).state = .OPEN →
      ((CircuitBreaker.init T R).execSeq steps).failures ≥
        ((CircuitBreaker.init T R).execSeq steps).failureThreshold) ∧
    (∀ (cb : CircuitBreaker) (now : Int), cb.state = .OPEN →
      (now - cb.lastFailureTime > cb.resetTimeout →
        cb.preCheck now = some { cb with state := .HALF_OPEN }) ∧
      (¬ now - cb.lastFailureTime > cb.resetTimeout → cb.preCheck now = none)) := by
  constructor
  · intro T R steps
    suffices h : ∀ (steps : List (Int × Except Unit Unit)) (cb : CircuitBreaker),
        (cb.state = .OPEN → cb.failures ≥ cb.failureThreshold) →
        ((cb.execSeq steps).state = .OPEN →
          (cb.execSeq steps).failures ≥ (cb.execSeq steps).failureThreshold) by
      exact h steps (CircuitBreaker.init T R) (by simp [CircuitBreaker.init])
    intro steps
    induction steps with
    | nil => intro cb h; exact h
    | cons s steps ih =>
      intro cb h
      obtain ⟨tm, op⟩ := s
      exact ih _ (CircuitBreaker.execute_preserves_open_inv cb tm op h)
  · intro cb now hO
    constructor
    · intro hT
      simp [CircuitBreaker.preCheck, hO, hT]
    · intro hT
      simp [CircuitBreaker.preCheck, hO, hT]

/-- Witness for C8: one failure on a threshold-1 breaker opens it (and the
invariant gives `failures ≥ 1`); the open breaker at time 100 with timeout
50 elapsed transitions to `HALF_OPEN`, and at time 10 it does not. -/
theorem C8_circuit_breaker_witness :
    (((CircuitBreaker.init 1 50).execSeq [(0, Except.error ())]).state = .OPEN ∧
      ((CircuitBreaker.init 1 50).execSeq [(0, Except.error ())]).failures ≥
        ((CircuitBreaker.init 1 50).execSeq [(0, Except.error ())]).failureThreshold) ∧
      ((openBreaker 1 50 0).state = .OPEN ∧
        ((100 : Int) - 0 > 50 ∧
          (openBreaker 1 50 0).preCheck 100 =
            some { openBreaker 1 50 0 with state := .HALF_OPEN }) ∧
        (¬ (10 : Int) - 0 > 50 ∧ (openBreaker 1 50 0).preCheck 10 = none)) :=
  ⟨⟨by decide, C8_circuit_breaker_invariant.1 1 50 [(0, Except.error ())] (by decide)⟩,
    ⟨by decide,
      ⟨by decide,
        (C8_circuit_breaker_invariant.2 (openBreaker 1 50 0) 100 (by decide)).1 (by decide)⟩,
      ⟨by decide,
        (C8_circuit_breaker_invariant.2 (openBreaker 1 50 0) 10 (by decide)).2 (by decide)⟩⟩⟩

/-- A request body that passes `ErrorLogSchema` whenever its message does:
required fields present (`url` well-formed, `timestamp` a number, `type` in
the enum), optional fields absent. -/
def sampleBody (msg : String) : RawBody :=
  { message := some msg
    stack := none
    url := some "https://example.com"
    lineNumber := none
    columnNumber := none
    browser := none
    os := none
    timestamp := some 1700000000000
    type := some "error"
    userAgent := none }

/-- A message one character over the schema's 1000-character bound. -/
def longMsg : String := ⟨List.replicate 1001 'a'⟩

/-- A message over the 200-character bound the spec claims but well under
the schema's actual 1000-character bound. -/
def msg201 : String := ⟨List.replicate 201 'a'⟩

/-- C4: a request body that fails schema validation (for example, one
missing the required `message` field) yields the 400 client-error response
and causes no write to the log file; a well-formed body (under an admitted
rate limit and a non-throwing append) is appended as exactly one log entry
— the validated payload plus the client identifier and the server-assigned
timestamp — and the handler returns the success response. -/
theorem C4_ingestion_post_spec :
    (∀ b : RawBody, b.message = none → ErrorLogSchema.parse b = none) ∧
    (∀ (rs : RateStore) (log : List LogEntry) (ip : String) (now : Int)
        (b : RawBody) (ap : Bool),
      (checkRateLimit rs ip now).2 = true →
      ErrorLogSchema.parse b = none →
      (POST rs log ip now (some b) ap).2.1 = log ∧
        (POST rs log ip now (some b) ap).2.2 = ⟨false, 400⟩) ∧
    (∀ (rs : RateStore) (log : List LogEntry) (ip : String) (now : Int)
        (b : RawBody) (r : ErrorReport),
      (checkRateLimit rs ip now).2 = true →
      ErrorLogSchema.parse b = some r →
      (POST rs log ip now (some b) false).2.1 = log ++ [⟨r, ip, now⟩] ∧
        (POST rs log ip now (some b) false).2.2 = ⟨true, 200⟩) := by
  refine ⟨?_, ?_, ?_⟩
  · intro b hmsg
    simp [ErrorLogSchema.parse, hmsg]
  · intro rs log ip now b ap hrl hparse
    simp [POST, hrl, hparse]
  · intro rs log ip now b r hrl hparse
    simp [POST, hrl, hparse]

/-- Witness for C4: a body missing `message` is rejected with no log write;
`sampleBody "boom"` is appended as one entry with success. -/
theorem C4_ingestion_post_witness :
    ({ sampleBody "boom" with message := none } : RawBody).message = none ∧
      ErrorLogSchema.parse { sampleBody "boom" with message := none } = none ∧
      ((checkRateLimit [] "ip" 0).2 = true ∧
        (POST [] [] "ip" 0 (some { sampleBody "boom" with message := none }) false).2.1 = [] ∧
        (POST [] [] "ip" 0 (some { sampleBody "boom" with message := none }) false).2.2 =
          ⟨false, 400⟩) ∧
      (ErrorLogSchema.parse (sampleBody "boom") =
          some ⟨"boom", none, "https://example.com", none, none, none, none,
                1700000000000, "error", none⟩ ∧
        (POST [] [] "ip" 0 (some (sampleBody "boom")) false).2.1 =
          [⟨⟨"boom", none, "https://example.com", none, none, none, none,
              1700000000000, "error", none⟩, "ip", 0⟩] ∧
        (POST [] [] "ip" 0 (some (sampleBody "boom")) false).2.2 = ⟨true, 200⟩) :=
  ⟨rfl,
    C4_ingestion_post_spec.1 _ rfl,
    ⟨by decide,
      (C4_ingestion_post_spec.2.1 [] [] "ip" 0 _ false (by decide)
          (C4_ingestion_post_spec.1 _ rfl)).1,
      (C4_ingestion_post_spec.2.1 [] [] "ip" 0 _ false (by decide)
          (C4_ingestion_post_spec.1 _ rfl)).2⟩,
    ⟨by decide,
      by simpa using (C4_ingestion_post_spec.2.2 [] [] "ip" 0 (sampleBody "boom")
        ⟨"boom", none, "https://example.com", none, none, none, none,
          1700000000000, "error", none⟩ (by decide) (by decide)).1,
      (C4_ingestion_post_spec.2.2 [] [] "ip" 0 (sampleBody "boom")
        ⟨"boom", none, "https://example.com", none, none, none, none,
          1700000000000, "error", none⟩ (by decide) (by decide)).2⟩⟩

set_option maxRecDepth 10000 in
/-- C5 counterexample: the schema's bound is `z.string().max(1000)`, a
rejection bound, not a truncation at 200 — an otherwise-valid report whose
message has 201 characters is accepted with the message unmodified (not
truncated to 200), and one whose message has 1001 characters fails
validation, so validation does fail on account of message length. -/
theorem C5_message_length_counterexample :
    msg201.length = 201 ∧
      ErrorLogSchema.parse (sampleBody msg201) =
        some ⟨msg201, none, "https://example.com", none, none, none, none,
              1700000000000, "error", none⟩ ∧
      longMsg.length = 1001 ∧
      ErrorLogSchema.parse (sampleBody longMsg) = none := by
  refine ⟨by decide, by decide, by decide, by decide⟩

/-- C5 (amended): at the ingestion boundary the message length bound is
1000 characters, not 200, and it rejects rather than truncates — every
accepted report keeps its message unmodified (hence of length ≤ 1000), and
a report whose message exceeds 1000 characters fails validation however
valid the rest of it is. -/
theorem C5_message_length_amended :
    (∀ (b : RawBody) (msg : String) (r : ErrorReport),
      b.message = some msg → ErrorLogSchema.parse b = some r →
      r.message = msg ∧ msg.length ≤ 1000) ∧
    (∀ (b : RawBody) (msg : String),
      b.message = some msg → msg.length > 1000 →
      ErrorLogSchema.parse b = none) := by
  constructor
  · intro b msg r hmsg hparse
    rcases b with ⟨bm, bs, bu, bl, bc, bb, bo, bt, bty, bua⟩
    cases hmsg
    cases bu <;> cases bt <;> cases bty <;>
      simp only [ErrorLogSchema.parse] at hparse <;>
      try exact Option.noConfusion hparse
    split at hparse
    · rename_i hcond
      cases hparse
      simp only [Bool.and_eq_true, decide_eq_true_eq] at hcond
      exact ⟨rfl, hcond.1.1⟩
    · exact Option.noConfusion hparse
  · intro b msg hmsg hlen
    rcases b with ⟨bm, bs, bu, bl, bc, bb, bo, bt, bty, bua⟩
    cases hmsg
    have hfail : ¬ msg.length ≤ 1000 := by omega
    cases bu <;> cases bt <;> cases bty <;>
      simp [ErrorLogSchema.parse, hfail]

set_option maxRecDepth 10000 in
/-- Witness for C5 (amended): the accepted `sampleBody "boom"` keeps its
message; the 1001-character message is rejected. -/
theorem C5_message_length_amended_witness :
    ((sampleBody "boom").message = some "boom" ∧
      ("boom" : String).length ≤ 1000 ∧
      (⟨"boom", none, "https://example.com", none, none, none, none,
          1700000000000, "error", none⟩ : ErrorReport).message = "boom") ∧
      ((sampleBody longMsg).message = some longMsg ∧
        longMsg.length > 1000 ∧
        ErrorLogSchema.parse (sampleBody longMsg) = none) :=
  ⟨⟨rfl, by decide,
      (C5_message_length_amended.1 (sampleBody "boom") "boom"
        ⟨"boom", none, "https://example.com", none, none, none, none,
          1700000000000, "error", none⟩ rfl (by decide)).1⟩,
    ⟨rfl, by decide,
      C5_message_length_amended.2 (sampleBody longMsg) longMsg rfl (by decide)⟩⟩

/-- C6 counterexample: with an admitted request, a schema-valid body and
the append to the log file throwing, the handler's catch-all returns the
400 client-error response — a 4xx, not a 5xx — so persistence failures are
not distinguished from client-caused failures. -/
theorem C6_persistence_status_counterexample :
    (POST [] [] "1.2.3.4" 0 (some (sampleBody "boom")) true).2.2 = ⟨false, 400⟩ ∧
      400 < 500 :=
  ⟨by decide, by decide⟩

/-- C6 (amended): validation failures yield 400 and rate-limit failures
yield 429 (both 4xx), but a failure of the persistence step lands in the
same catch-all and also yields the 400 client-error response; the handler
returns only the statuses 200, 400 and 429, never a 5xx. -/
theorem C6_response_statuses_amended :
    (∀ (rs : RateStore) (log : List LogEntry) (ip : String) (now : Int)
        (body : Option RawBody) (ap : Bool),
      (checkRateLimit rs ip now).2 = false →
      (POST rs log ip now body ap).2.2 = ⟨false, 429⟩) ∧
    (∀ (rs : RateStore) (log : List LogEntry) (ip : String) (now : Int)
        (b : RawBody) (ap : Bool),
      (checkRateLimit rs ip now).2 = true →
      ErrorLogSchema.parse b = none →
      (POST rs log ip now (some b) ap).2.2 = ⟨false, 400⟩) ∧
    (∀ (rs : RateStore) (log : List LogEntry) (ip : String) (now : Int)
        (b : RawBody) (r : ErrorReport),
      (checkRateLimit rs ip now).2 = true →
      ErrorLogSchema.parse b = some r →
      (POST rs log ip now (some b) true).2.2 = ⟨false, 400⟩) ∧
    (∀ (rs : RateStore) (log : List LogEntry) (ip : String) (now : Int)
        (body : Option RawBody) (ap : Bool),
      (POST rs log ip now body ap).2.2.status = 200 ∨
        (POST rs log ip now body ap).2.2.status = 400 ∨
        (POST rs log ip now body ap).2.2.status = 429) := by
  refine ⟨?_, ?_, ?_, ?_⟩
  · intro rs log ip now body ap hrl
    simp [POST, hrl]
  · intro rs log ip now b ap hrl hparse
    simp [POST, hrl, hparse]
  · intro rs log ip now b r hrl hparse
    simp [POST, hrl, hparse]
  · intro rs log ip now body ap
    by_cases hrl : (checkRateLimit rs ip now).2 = true
    · simp only [POST, hrl]
      cases body with
      | none => simp
      | some b =>
        cases hp : ErrorLogSchema.parse b with
        | none => simp [hp]
        | some r => cases ap <;> simp [hp]
    · rw [Bool.not_eq_true] at hrl
      simp [POST, hrl]

/-- Witness for C6 (amended): a rate-limited request gets 429; a body
missing `message` gets 400; a valid body with a throwing append gets
400. -/
theorem C6_response_statuses_witness :
    ((checkRateLimit [("c", ⟨10, 60005⟩)] "c" 100).2 = false ∧
      (POST [("c", ⟨10, 60005⟩)] [] "c" 100 (some (sampleBody "boom")) false).2.2 =
        ⟨false, 429⟩) ∧
      ((checkRateLimit [] "ip" 0).2 = true ∧
        (POST [] [] "ip" 0 (some { sampleBody "boom" with message := none }) false).2.2 =
          ⟨false, 400⟩) ∧
      (POST [] [] "ip" 0 (some (sampleBody "boom")) true).2.2 = ⟨false, 400⟩ :=
  ⟨⟨by decide,
      C6_response_statuses_amended.1 [("c", ⟨10, 60005⟩)] [] "c" 100
        (some (sampleBody "boom")) false (by decide)⟩,
    ⟨by decide,
      C6_response_statuses_amended.2.1 [] [] "ip" 0 _ false (by decide) (by decide)⟩,
    C6_response_statuses_amended.2.2.1 [] [] "ip" 0 (sampleBody "boom")
      ⟨"boom", none, "https://example.com", none, none, none, none,
        1700000000000, "error", none⟩ (by decide) (by decide)⟩

/-- The delay the retry loop schedules after failed attempt `i`
(`backoff ? delay * Math.pow(2, attempt - 1) : delay`). -/
def retryDelay (delay : Nat) (backoff : Bool) (i : Nat) : Nat :=
  if backoff then delay * 2 ^ (i - 1) else delay

/-- The retry loop entered at any attempt invokes the operation at most
`(maxAttempts + 1 - attempt)⁺` more times. -/
theorem retryLoop_length_le {E T : Type} (op : Nat → Except E T) (M : Int)
    (delay : Nat) (backoff hasOnRetry : Bool) :
    ∀ (n a : Nat) (le : Option E), (M + 1 - a).toNat = n →
      (retryLoop op M delay backoff hasOnRetry a le).invocations.length ≤ n := by
  intro n
  induction n with
  | zero =>
    intro a le hn
    rw [retryLoop, if_pos (by omega)]
    simp
  | succ n ih =>
    intro a le hn
    rw [retryLoop]
    by_cases hg : (a : Int) > M
    · rw [if_pos hg]
      simp
    · rw [if_neg hg]
      cases hop : op a with
      | ok t => simp
      | error e =>
        by_cases heq : (a : Int) = M
        · simp [hop, heq]
        · have hrec := ih (a + 1) (some e) (by omega)
          simp only [hop, heq, if_false, List.length_cons]
          omega

/-- The retry loop entered at attempt `a`, when attempts `a, …, j - 1` fail
and attempt `j ≤ maxAttempts` succeeds: invokes exactly attempts `a … j`,
calls `onRetry` (when supplied) and schedules a delay exactly after each of
attempts `a … j - 1`, and returns the success. -/
theorem retryLoop_first_success {E T : Type} (op : Nat → Except E T) (M : Nat)
    (delay : Nat) (backoff hasOnRetry : Bool) (err : Nat → E) (t : T) (j : Nat) :
    ∀ (n a : Nat) (le : Option E), j - a = n → 1 ≤ a → a ≤ j → j ≤ M →
      op j = .ok t →
      (∀ i, a ≤ i → i < j → op i = .error (err i)) →
      retryLoop op (M : Int) delay backoff hasOnRetry a le =
        ⟨List.range' a (j - a + 1),
         if hasOnRetry then (List.range' a (j - a)).map (fun i => (i, err i)) else [],
         (List.range' a (j - a)).map (retryDelay delay backoff),
         .ok t⟩ := by
  intro n
  induction n with
  | zero =>
    intro a le hn h1 haj hjM hok hfail
    have ha : a = j := by omega
    subst ha
    rw [retryLoop, if_neg (by omega)]
    simp [hok, Nat.sub_self]
  | succ n ih =>
    intro a le hn h1 haj hjM hok hfail
    have haj' : a < j := by omega
    have hne : ¬ ((a : Int) = (M : Int)) := by omega
    have hrec := ih (a + 1) (some (err a)) (by omega) (by omega) (by omega) hjM hok
      (fun i _ hij => hfail i (by omega) hij)
    have hc : j - a = (j - (a + 1)) + 1 := by omega
    rw [retryLoop, if_neg (by omega)]
    simp only [hfail a (by omega) haj', hne, if_false, hrec]
    cases hasOnRetry <;> simp [retryDelay, hc, List.range'_succ]

/-- The retry loop entered at attempt `a ≤ maxAttempts`, when every attempt
from `a` through `maxAttempts` fails: invokes exactly attempts
`a … maxAttempts`, calls `onRetry` (when supplied) and schedules a delay
exactly after each attempt but the last, and throws the last attempt's
error. -/
theorem retryLoop_all_fail {E T : Type} (op : Nat → Except E T) (M : Nat)
    (delay : Nat) (backoff hasOnRetry : Bool) (err : Nat → E) :
    ∀ (n a : Nat) (le : Option E), M - a = n → 1 ≤ a → a ≤ M →
      (∀ i, a ≤ i → i ≤ M → op i = .error (err i)) →
      retryLoop op (M : Int) delay backoff hasOnRetry a le =
        ⟨List.range' a (M - a + 1),
         if hasOnRetry then (List.range' a (M - a)).map (fun i => (i, err i)) else [],
         (List.range' a (M - a)).map (retryDelay delay backoff),
         .error (some (err M))⟩ := by
  intro n
  induction n with
  | zero =>
    intro a le hn h1 haM hfail
    have ha : a = M := by omega
    subst ha
    rw [retryLoop, if_neg (by omega)]
    simp [hfail a (by omega) (by omega), Nat.sub_self]
  | succ n ih =>
    intro a le hn h1 haM hfail
    have haM' : a < M := by omega
    have hne : ¬ ((a : Int) = (M : Int)) := by omega
    have hrec := ih (a + 1) (some (err a)) (by omega) (by omega) (by omega)
      (fun i _ hiM => hfail i (by omega) hiM)
    have hc : M - a = (M - (a + 1)) + 1 := by omega
    rw [retryLoop, if_neg (by omega)]
    simp only [hfail a (by omega) (by omega), hne, if_false, hrec]
    cases hasOnRetry <;> simp [retryDelay, hc, List.range'_succ]

/-- C3: for every operation and every `maxAttempts ≥ 1`, `retry` invokes
the operation at most `maxAttempts` times; when the first success is at
attempt `j`, it returns that result with exactly invocations `1 … j` (none
after the success), `onRetry` calls — when supplied — and scheduled delays
exactly after attempts `1 … j - 1` (between attempts, never after the
last); when all `maxAttempts` invocations fail, it makes exactly
invocations `1 … maxAttempts`, calls `onRetry`/delays only between
attempts, and throws the error observed on the last attempt. -/
theorem C3_retry_spec {E T : Type} (op : Nat → Except E T) (M delay : Nat)
    (backoff hasOnRetry : Bool) (hM : 1 ≤ M) :
    ((retry op (M : Int) delay backoff hasOnRetry).invocations.length ≤ M) ∧
    (∀ (j : Nat) (t : T) (err : Nat → E), 1 ≤ j → j ≤ M → op j = .ok t →
      (∀ i, 1 ≤ i → i < j → op i = .error (err i)) →
      retry op (M : Int) delay backoff hasOnRetry =
        ⟨List.range' 1 j,
         if hasOnRetry then (List.range' 1 (j - 1)).map (fun i => (i, err i)) else [],
         (List.range' 1 (j - 1)).map (retryDelay delay backoff),
         .ok t⟩) ∧
    (∀ err : Nat → E, (∀ i, 1 ≤ i → i ≤ M → op i = .error (err i)) →
      retry op (M : Int) delay backoff hasOnRetry =
        ⟨List.range' 1 M,
         if hasOnRetry then (List.range' 1 (M - 1)).map (fun i => (i, err i)) else [],
         (List.range' 1 (M - 1)).map (retryDelay delay backoff),
         .error (some (err M))⟩) := by
  refine ⟨?_, ?_, ?_⟩
  · have := retryLoop_length_le op (M : Int) delay backoff hasOnRetry
      ((M : Int) + 1 - 1).toNat 1 none rfl
    unfold retry
    calc (retryLoop op (M : Int) delay backoff hasOnRetry 1 none).invocations.length
        ≤ ((M : Int) + 1 - 1).toNat := this
      _ = M := by omega
  · intro j t err h1 hjM hok hfail
    unfold retry
    rw [retryLoop_first_success op M delay backoff hasOnRetry err t j (j - 1) 1 none
      (by omega) (by omega) (by omega) hjM hok hfail]
    have h2 : j - 1 + 1 = j := by omega
    rw [h2]
  · intro err hfail
    unfold retry
    rw [retryLoop_all_fail op M delay backoff hasOnRetry err (M - 1) 1 none
      (by omega) (by omega) (by omega) hfail]
    have h2 : M - 1 + 1 = M := by omega
    rw [h2]

/-- Witness for C3 with `maxAttempts = 3`: an operation succeeding on its
second attempt is invoked exactly twice with one `onRetry` call and one
delay; an always-failing operation is invoked exactly three times and the
third error is thrown. -/
theorem C3_retry_witness :
    ((retry (fun i => if i = 2 then Except.ok 7 else Except.error (10 * i))
          ((3 : Nat) : Int) 1000 true true).invocations.length ≤ 3) ∧
      retry (fun i => if i = 2 then Except.ok 7 else Except.error (10 * i))
          ((3 : Nat) : Int) 1000 true true =
        ⟨[1, 2], [(1, 10)], [1000], .ok 7⟩ ∧
      retry (fun i => (Except.error (10 * i) : Except Nat Nat))
          ((3 : Nat) : Int) 1000 true true =
        ⟨[1, 2, 3], [(1, 10), (2, 20)], [1000, 2000], .error (some 30)⟩ := by
  have hfail1 : ∀ i, 1 ≤ i → i < 2 →
      (if i = 2 then Except.ok 7 else Except.error (10 * i)) = Except.error (10 * i) := by
    intro i h1 h2
    have hi : i = 1 := by omega
    subst hi
    rfl
  refine ⟨(C3_retry_spec (fun i => if i = 2 then Except.ok 7 else Except.error (10 * i))
      3 1000 true true (by omega)).1, ?_, ?_⟩
  · rw [(C3_retry_spec (fun i => if i = 2 then Except.ok 7 else Except.error (10 * i))
      3 1000 true true (by omega)).2.1 2 7 (fun i => 10 * i) (by omega) (by omega) rfl hfail1]
    rfl
  · rw [(C3_retry_spec (fun i => (Except.error (10 * i) : Except Nat Nat))
      3 1000 true true (by omega)).2.2 (fun i => 10 * i) (fun _ _ _ => rfl)]
    rfl

end SBTech
